import Mathlib

/-!
# Verification development for the studio credential-vault cryptographic core

Shallow embedding of `src/lib/crypto-advanced.ts` and `src/lib/secure-auth.ts`.

Modelling conventions:
* JavaScript byte buffers (`Uint8Array`, `ArrayBuffer`) are `List Nat` with each
  entry `< 256`.
* JavaScript strings are Lean `String`s; `TextEncoder.encode` is modelled by an
  explicit UTF-8 encoder over the string's characters.
* Web Crypto primitives (`crypto.subtle.digest`, `deriveKey`, `encrypt`,
  `decrypt`) are not part of this repository; they are modelled from the spec as
  fixed deterministic functions with the interface properties the source relies
  on (SHA-256 is a deterministic digest; PBKDF2 is a deterministic function of
  password, salt, iteration count, and key length; AES-GCM is keystream masking
  plus an authentication tag over the ciphertext, so decryption with the
  matching key and nonce inverts encryption and a tag mismatch fails).
* Randomness (`crypto.getRandomValues`) is modelled by passing the sampled
  bytes as explicit arguments.
* Thrown `Error(msg)` values are modelled by `Except String`; a `try`/`catch`
  that rethrows a fixed message is an explicit collapse of the inner error.
* The singleton key cache of `AdvancedCryptoManager` is explicit state threaded
  through the key-derivation functions, with `Date.now()` an explicit `now`
  argument.  A JavaScript `Map` is an insertion-ordered association list.
-/

namespace Studio

/-! ## Base64 (`btoa` / `atob`, `arrayBufferToBase64` / `base64ToArrayBuffer`) -/

/-- The standard base64 alphabet used by `btoa`. -/
def b64Alphabet : List Char :=
  ['A','B','C','D','E','F','G','H','I','J','K','L','M','N','O','P','Q','R','S',
   'T','U','V','W','X','Y','Z','a','b','c','d','e','f','g','h','i','j','k','l',
   'm','n','o','p','q','r','s','t','u','v','w','x','y','z','0','1','2','3','4',
   '5','6','7','8','9','+','/']

/-- The base64 digit for a 6-bit value. -/
def b64Char (i : Nat) : Char := b64Alphabet.getD i 'A'

/-- The 6-bit value of a base64 digit, `none` for characters outside the
alphabet. -/
def b64Index (c : Char) : Option Nat := b64Alphabet.findIdx? (· = c)

/-- `btoa` on a byte sequence: three input bytes become four base64 digits,
with `=` padding for a final chunk of one or two bytes. -/
def b64EncodeChunks : List Nat → List Char
  | [] => []
  | [a] => [b64Char (a / 4), b64Char (a % 4 * 16), '=', '=']
  | [a, b] => [b64Char (a / 4), b64Char (a % 4 * 16 + b / 16), b64Char (b % 16 * 4), '=']
  | a :: b :: c :: rest =>
      b64Char (a / 4) :: b64Char (a % 4 * 16 + b / 16) ::
        b64Char (b % 16 * 4 + c / 64) :: b64Char (c % 64) :: b64EncodeChunks rest

/-- `atob` on a base64 string (as a character list), recovering the byte
sequence; `none` on input that is not well-formed base64. -/
def b64DecodeChunks : List Char → Option (List Nat)
  | [] => some []
  | c1 :: c2 :: c3 :: c4 :: rest =>
      match b64Index c1, b64Index c2 with
      | some i1, some i2 =>
          if c3 = '=' then
            if c4 = '=' ∧ rest = [] then some [i1 * 4 + i2 / 16] else none
          else
            match b64Index c3 with
            | some i3 =>
                if c4 = '=' then
                  if rest = [] then some [i1 * 4 + i2 / 16, i2 % 16 * 16 + i3 / 4] else none
                else
                  match b64Index c4 with
                  | some i4 =>
                      (b64DecodeChunks rest).map
                        (fun bs => (i1 * 4 + i2 / 16) :: (i2 % 16 * 16 + i3 / 4) ::
                          (i3 % 4 * 64 + i4) :: bs)
                  | none => none
            | none => none
      | _, _ => none
  | _ => none

theorem b64Index_b64Char {i : Nat} (h : i < 64) : b64Index (b64Char i) = some i := by
  interval_cases i <;> decide

theorem b64Char_ne_eq {i : Nat} (h : i < 64) : b64Char i ≠ '=' := by
  interval_cases i <;> decide

/-- Decoding inverts encoding on genuine byte sequences. -/
theorem b64_roundtrip : ∀ (bs : List Nat), (∀ b ∈ bs, b < 256) →
    b64DecodeChunks (b64EncodeChunks bs) = some bs := by
  intro bs
  induction bs using b64EncodeChunks.induct with
  | case1 => intro _; rfl
  | case2 a =>
      intro h
      have ha : a < 256 := h a (by simp)
      have h1 : a / 4 < 64 := by omega
      have h2 : a % 4 * 16 < 64 := by omega
      have e1 : a / 4 * 4 + a % 4 * 16 / 16 = a := by omega
      simp [b64EncodeChunks, b64DecodeChunks, b64Index_b64Char h1,
        b64Index_b64Char h2, e1]
      omega
  | case3 a b =>
      intro h
      have ha : a < 256 := h a (by simp)
      have hb : b < 256 := h b (by simp)
      have h1 : a / 4 < 64 := by omega
      have h2 : a % 4 * 16 + b / 16 < 64 := by omega
      have h3 : b % 16 * 4 < 64 := by omega
      have e1 : a / 4 * 4 + (a % 4 * 16 + b / 16) / 16 = a := by omega
      have e2 : (a % 4 * 16 + b / 16) % 16 * 16 + b % 16 * 4 / 4 = b := by omega
      simp only [b64EncodeChunks, b64DecodeChunks, b64Index_b64Char h1,
        b64Index_b64Char h2]
      rw [if_neg (b64Char_ne_eq h3)]
      simp [b64Index_b64Char h3, e1, e2]
      omega
  | case4 a b c rest ih =>
      intro h
      have ha : a < 256 := h a (by simp)
      have hb : b < 256 := h b (by simp)
      have hc : c < 256 := h c (by simp)
      have h1 : a / 4 < 64 := by omega
      have h2 : a % 4 * 16 + b / 16 < 64 := by omega
      have h3 : b % 16 * 4 + c / 64 < 64 := by omega
      have h4 : c % 64 < 64 := by omega
      have hrest : ∀ x ∈ rest, x < 256 := by
        intro x hx; exact h x (by simp [hx])
      have e1 : a / 4 * 4 + (a % 4 * 16 + b / 16) / 16 = a := by omega
      have e2 : (a % 4 * 16 + b / 16) % 16 * 16 + (b % 16 * 4 + c / 64) / 4 = b := by omega
      have e3 : (b % 16 * 4 + c / 64) % 4 * 64 + c % 64 = c := by omega
      simp only [b64EncodeChunks, b64DecodeChunks, b64Index_b64Char h1,
        b64Index_b64Char h2]
      rw [if_neg (b64Char_ne_eq h3)]
      simp only [b64Index_b64Char h3]
      rw [if_neg (b64Char_ne_eq h4)]
      simp [b64Index_b64Char h4, ih hrest, e1, e2, e3]

/-! ## Text encoding (`TextEncoder`) -/

/-- UTF-8 encoding of a single code point. -/
def utf8EncodeCodePoint (n : Nat) : List Nat :=
  if n < 128 then [n]
  else if n < 2048 then [192 + n / 64, 128 + n % 64]
  else if n < 65536 then [224 + n / 4096, 128 + n / 64 % 64, 128 + n % 64]
  else [240 + n / 262144, 128 + n / 4096 % 64, 128 + n / 64 % 64, 128 + n % 64]

/-- `new TextEncoder().encode(s)`: the UTF-8 bytes of a string. -/
def textEncode (s : String) : List Nat :=
  s.data.flatMap (fun c => utf8EncodeCodePoint c.toNat)

theorem utf8EncodeCodePoint_lt {n : Nat} (h : n < 1114112) :
    ∀ b ∈ utf8EncodeCodePoint n, b < 256 := by
  intro b hb
  unfold utf8EncodeCodePoint at hb
  split at hb
  · simp at hb; omega
  · split at hb
    · simp at hb; omega
    · split at hb
      · simp at hb; omega
      · simp at hb; omega

theorem textEncode_lt (s : String) : ∀ b ∈ textEncode s, b < 256 := by
  intro b hb
  simp only [textEncode, List.mem_flatMap] at hb
  obtain ⟨c, _, hb⟩ := hb
  have hc : c.toNat < 1114112 := by
    rcases c.valid with h | ⟨_, h⟩
    · exact Nat.lt_trans h (by norm_num)
    · exact h
  exact utf8EncodeCodePoint_lt hc b hb

/-! ## Modelled Web Crypto primitives

These are platform primitives (`crypto.subtle`), not code of this repository.
Each is modelled from the spec as a concrete deterministic function with
byte-valued output. -/

/-- A deterministic mixing step used by the modelled primitives (32-bit FNV-like
accumulation). -/
def digestMix (acc b : Nat) : Nat := (acc * 131 + b + 17) % 4294967296

/-- Modelled from the spec: `crypto.subtle.digest('SHA-256', ·)` — a
cryptographic hash producing a 32-byte digest, modelled as a fixed
deterministic function of the input bytes. -/
def sha256Model (input : List Nat) : List Nat :=
  let h := input.foldl digestMix 2166136261
  (List.range 32).map (fun i => (h / 2 ^ (i % 16) + i * 37 + h % 251) % 256)

theorem sha256Model_lt (input : List Nat) : ∀ b ∈ sha256Model input, b < 256 := by
  intro b hb
  simp only [sha256Model, List.mem_map, List.mem_range] at hb
  obtain ⟨i, _, rfl⟩ := hb
  exact Nat.mod_lt _ (by norm_num)

/-- Modelled from the spec: PBKDF2-SHA256 (`crypto.subtle.deriveKey` /
`deriveBits`) — a deterministic function of the password bytes, the salt bytes,
the iteration count, and the output length in bits, producing `keyLength / 8`
key bytes. -/
def pbkdf2Model (password salt : List Nat) (iterations keyLength : Nat) : List Nat :=
  let seed := password.foldl digestMix 77 + 1000003 * salt.foldl digestMix 99 +
    8191 * iterations
  (List.range (keyLength / 8)).map (fun i => (seed / 2 ^ (i % 24) + i * 101) % 256)

/-! AES-GCM model: a keystream masks the message bytes, and an authentication
tag over the ciphertext is appended; decryption checks the tag and unmasks. -/

/-- Modelled from the spec: the AES-GCM keystream byte at position `i` for a
given key and nonce. -/
def gcmKeystream (key iv : List Nat) (i : Nat) : Nat :=
  (key.foldl digestMix (iv.foldl digestMix (i + 11)) + 53 * i) % 256

/-- Mask message bytes with the keystream, starting at position `i`. -/
def gcmMaskFrom (key iv : List Nat) : Nat → List Nat → List Nat
  | _, [] => []
  | i, b :: bs => (b + gcmKeystream key iv i) % 256 :: gcmMaskFrom key iv (i + 1) bs

/-- Remove the keystream mask, starting at position `i`. -/
def gcmUnmaskFrom (key iv : List Nat) : Nat → List Nat → List Nat
  | _, [] => []
  | i, b :: bs =>
      (b + 256 - gcmKeystream key iv i) % 256 :: gcmUnmaskFrom key iv (i + 1) bs

/-- Modelled from the spec: the 16-byte AES-GCM authentication tag over the
ciphertext body for a given key and nonce. -/
def gcmTag (key iv body : List Nat) : List Nat :=
  let h := body.foldl digestMix (key.foldl digestMix (iv.foldl digestMix 5))
  (List.range 16).map (fun i => (h / 2 ^ i + 29 * i) % 256)

/-- Modelled from the spec: `crypto.subtle.encrypt({name: 'AES-GCM', iv}, key,
msg)` — ciphertext body followed by the authentication tag. -/
def gcmEncrypt (key iv msg : List Nat) : List Nat :=
  let body := gcmMaskFrom key iv 0 msg
  body ++ gcmTag key iv body

/-- Modelled from the spec: `crypto.subtle.decrypt({name: 'AES-GCM', iv}, key,
ct)` — fails (`none`, the primitive throwing `OperationError`) unless the
authentication tag matches. -/
def gcmDecrypt (key iv ct : List Nat) : Option (List Nat) :=
  if ct.length < 16 then none
  else
    let body := ct.take (ct.length - 16)
    let tag := ct.drop (ct.length - 16)
    if tag = gcmTag key iv body then some (gcmUnmaskFrom key iv 0 body) else none

theorem gcmKeystream_lt (key iv : List Nat) (i : Nat) : gcmKeystream key iv i < 256 :=
  Nat.mod_lt _ (by norm_num)

theorem gcmUnmaskFrom_gcmMaskFrom (key iv : List Nat) :
    ∀ (i : Nat) (msg : List Nat), (∀ b ∈ msg, b < 256) →
      gcmUnmaskFrom key iv i (gcmMaskFrom key iv i msg) = msg := by
  intro i msg
  induction msg generalizing i with
  | nil => intro _; rfl
  | cons b bs ih =>
      intro h
      have hb : b < 256 := h b (by simp)
      have hk : gcmKeystream key iv i < 256 := gcmKeystream_lt key iv i
      simp only [gcmMaskFrom, gcmUnmaskFrom, ih (i + 1) (fun x hx => h x (by simp [hx])),
        List.cons.injEq, and_true]
      omega

theorem gcmMaskFrom_length (key iv : List Nat) :
    ∀ (i : Nat) (msg : List Nat), (gcmMaskFrom key iv i msg).length = msg.length := by
  intro i msg
  induction msg generalizing i with
  | nil => rfl
  | cons b bs ih => simp [gcmMaskFrom, ih]

theorem gcmMaskFrom_lt (key iv : List Nat) :
    ∀ (i : Nat) (msg : List Nat), ∀ b ∈ gcmMaskFrom key iv i msg, b < 256 := by
  intro i msg
  induction msg generalizing i with
  | nil => simp [gcmMaskFrom]
  | cons b bs ih =>
      intro x hx
      simp only [gcmMaskFrom, List.mem_cons] at hx
      rcases hx with rfl | hx
      · exact Nat.mod_lt _ (by norm_num)
      · exact ih (i + 1) x hx

theorem gcmTag_length (key iv body : List Nat) : (gcmTag key iv body).length = 16 := by
  simp [gcmTag]

theorem gcmTag_lt (key iv body : List Nat) : ∀ b ∈ gcmTag key iv body, b < 256 := by
  intro b hb
  simp only [gcmTag, List.mem_map, List.mem_range] at hb
  obtain ⟨i, _, rfl⟩ := hb
  exact Nat.mod_lt _ (by norm_num)

theorem gcmEncrypt_lt (key iv msg : List Nat) : ∀ b ∈ gcmEncrypt key iv msg, b < 256 := by
  intro b hb
  simp only [gcmEncrypt, List.mem_append] at hb
  rcases hb with hb | hb
  · exact gcmMaskFrom_lt key iv 0 msg b hb
  · exact gcmTag_lt key iv _ b hb

/-- Decrypting with the key and nonce used for encryption recovers the
message. -/
theorem gcmDecrypt_gcmEncrypt (key iv msg : List Nat) (h : ∀ b ∈ msg, b < 256) :
    gcmDecrypt key iv (gcmEncrypt key iv msg) = some msg := by
  have hlen : (gcmEncrypt key iv msg).length = msg.length + 16 := by
    simp [gcmEncrypt, gcmMaskFrom_length, gcmTag_length]
  have hbody : (gcmEncrypt key iv msg).take ((gcmEncrypt key iv msg).length - 16) =
      gcmMaskFrom key iv 0 msg := by
    rw [hlen]
    simp only [Nat.add_sub_cancel, gcmEncrypt]
    rw [List.take_append_of_le_length (by simp [gcmMaskFrom_length])]
    simp [gcmMaskFrom_length, List.take_of_length_le]
  have htag : (gcmEncrypt key iv msg).drop ((gcmEncrypt key iv msg).length - 16) =
      gcmTag key iv (gcmMaskFrom key iv 0 msg) := by
    rw [hlen]
    simp only [Nat.add_sub_cancel, gcmEncrypt]
    rw [List.drop_append_of_le_length (by simp [gcmMaskFrom_length])]
    simp [gcmMaskFrom_length, List.drop_of_length_le]
  unfold gcmDecrypt
  rw [if_neg (by omega)]
  simp only [hbody, htag, if_pos rfl]
  exact congrArg some (gcmUnmaskFrom_gcmMaskFrom key iv 0 msg h)

/-! ## Data model (`crypto-advanced.ts`) -/

/-- `SecureKey`: derived key material plus its provenance.  The opaque
`CryptoKey` handle is modelled by the derived key bytes. -/
structure SecureKey where
  key : List Nat
  salt : List Nat
  iterations : Nat
  algorithm : String
  keyLength : Nat
  timestamp : Nat
deriving DecidableEq, Repr

/-- `EncryptedPayload`: the on-the-wire envelope produced by encryption. -/
structure EncryptedPayload where
  data : String
  iv : String
  salt : String
  iterations : Nat
  algorithm : String
  keyLength : Nat
  version : String
  checksum : String
deriving DecidableEq, Repr

/-- `ENCRYPTION_VERSION` constant. -/
def ENCRYPTION_VERSION : String := "2.0.0"

/-- `getDefaultIterations()`: `appConfig.security.encryptionIterations`, whose
default (and fallback) value is 300000. -/
def defaultIterations : Nat := 300000

/-- `arrayBufferToBase64`. -/
def arrayBufferToBase64 (bytes : List Nat) : String :=
  String.mk (b64EncodeChunks bytes)

/-- `base64ToArrayBuffer`; `none` models `atob` throwing on malformed
base64. -/
def base64ToArrayBuffer (s : String) : Option (List Nat) :=
  b64DecodeChunks s.data

/-- `calculateChecksum(data, salt, iv)`: base64 of the SHA-256 digest of
`data ‖ salt ‖ iv`. -/
def calculateChecksum (data salt iv : List Nat) : String :=
  arrayBufferToBase64 (sha256Model (data ++ salt ++ iv))

/-! ## The key cache (`keyCache : Map<string, SecureKey>`, `maxCacheSize = 10`)

A JavaScript `Map` preserves insertion order; it is modelled as an association
list where `set` of a fresh key appends at the end and `keys().next().value`
is the head. -/

/-- The key cache state. -/
abbrev KeyCache := List (String × SecureKey)

/-- `Map.get`. -/
def cacheGet (m : KeyCache) (k : String) : Option SecureKey :=
  (m.find? (fun e => e.1 == k)).map (·.2)

/-- `Map.set`: update in place if the key is present, else append. -/
def cacheSet (m : KeyCache) (k : String) (v : SecureKey) : KeyCache :=
  if m.any (fun e => e.1 == k) then
    m.map (fun e => if e.1 == k then (k, v) else e)
  else m ++ [(k, v)]

/-- `Map.delete`. -/
def cacheDelete (m : KeyCache) (k : String) : KeyCache :=
  m.filter (fun e => e.1 != k)

/-- `createCacheKey(password, salt, iterations)`: first 8 characters of the
password, the first 8 salt bytes joined as decimal strings, and the iteration
count. -/
def createCacheKey (password : String) (salt : List Nat) (iterations : Nat) : String :=
  password.take 8 ++ "-" ++ String.join ((salt.take 8).map Nat.repr) ++ "-" ++
    Nat.repr iterations

/-- The private `cacheKey(cacheKey, secureKey)` method: evict the
oldest-inserted entry when the cache is full, then insert. -/
def cachePutEntry (m : KeyCache) (k : String) (v : SecureKey) : KeyCache :=
  let m' :=
    if 10 ≤ m.length then
      match m.head? with
      | some oldest => cacheDelete m oldest.1
      | none => m
    else m
  cacheSet m' k v

/-! ## Validators -/

/-- `validatePassword`: rejects the empty string (the only way a `string`
argument can be falsy or have length `< 1`). -/
def validatePassword (password : String) : Except String Unit :=
  if password = "" then Except.error "Password must be a non-empty string"
  else Except.ok ()

/-- `validateIterations`: the iteration count must lie in
`[10000, 10000000]`. -/
def validateIterations (iterations : Nat) : Except String Unit :=
  if iterations < 10000 then
    Except.error "Iteration count too low for security (minimum 10,000)"
  else if 10000000 < iterations then
    Except.error "Iteration count too high (maximum 10,000,000)"
  else Except.ok ()

/-! ## Key derivation (`deriveKeyFromPassword`)

The function is parameterised by the PBKDF2 primitive `kdf` so that theorems
quantifying over `kdf` express that a code path makes no cryptographic call;
`deriveKeyFromPassword` instantiates `kdf` with the modelled primitive.
`salt`, normally `options.salt` (or fresh randomness when omitted), and the
current time `Date.now()` are explicit arguments. -/

/-- The `SecureKey` built after a fresh PBKDF2 derivation (the body of the
`try` block in `deriveKeyFromPassword`). -/
def freshSecureKey (kdf : List Nat → List Nat → Nat → Nat → List Nat)
    (password : String) (iterations : Nat) (salt : List Nat) (keyLength : Nat)
    (now : Nat) : SecureKey :=
  { key := kdf (textEncode password) salt iterations keyLength
    salt := salt
    iterations := iterations
    algorithm := "PBKDF2"
    keyLength := keyLength
    timestamp := now }

/-- `deriveKeyFromPassword(password, {iterations, salt, keyLength})`,
parameterised by the PBKDF2 primitive. -/
def deriveKeyWith (kdf : List Nat → List Nat → Nat → Nat → List Nat)
    (password : String) (iterations : Nat) (salt : List Nat) (keyLength : Nat)
    (cache : KeyCache) (now : Nat) : Except String (SecureKey × KeyCache) :=
  match validatePassword password with
  | Except.error e => Except.error e
  | Except.ok () =>
    match validateIterations iterations with
    | Except.error e => Except.error e
    | Except.ok () =>
      match cacheGet cache (createCacheKey password salt iterations) with
      | some cached =>
          if now - cached.timestamp < 300000 then Except.ok (cached, cache)
          else
            Except.ok
              (freshSecureKey kdf password iterations salt keyLength now,
                cachePutEntry cache (createCacheKey password salt iterations)
                  (freshSecureKey kdf password iterations salt keyLength now))
      | none =>
          Except.ok
            (freshSecureKey kdf password iterations salt keyLength now,
              cachePutEntry cache (createCacheKey password salt iterations)
                (freshSecureKey kdf password iterations salt keyLength now))

/-- `deriveKeyFromPassword` with the modelled PBKDF2 primitive. -/
def deriveKeyFromPassword (password : String) (iterations : Nat) (salt : List Nat)
    (keyLength : Nat) (cache : KeyCache) (now : Nat) :
    Except String (SecureKey × KeyCache) :=
  deriveKeyWith pbkdf2Model password iterations salt keyLength cache now

/-! ## Authenticated encryption engine (`encryptData` / `decryptData`)

Plaintexts are represented by their `TextEncoder` bytes (`TextDecoder` is the
inverse of `TextEncoder` on the encoder's image, so a string and its byte
sequence are interchangeable at this boundary).  The per-call random salt and
IV are explicit arguments.  `cipherEncrypt`/`cipherDecrypt` dispatch on the
algorithm identifier the source passes to `crypto.subtle`. -/

/-- The cipher selected by the algorithm name (`AES-GCM` is the default; the
model supports exactly the algorithm the claims exercise, other names fail as
an unsupported-algorithm error from the primitive). -/
def cipherEncrypt (algorithm : String) (key iv msg : List Nat) : Option (List Nat) :=
  if algorithm = "AES-GCM" then some (gcmEncrypt key iv msg) else none

/-- Keyed decryption dispatching on the algorithm name. -/
def cipherDecrypt (algorithm : String) (key iv ct : List Nat) : Option (List Nat) :=
  if algorithm = "AES-GCM" then gcmDecrypt key iv ct else none

/-- The collapsed caller-facing decryption error. -/
def genericDecryptError : String :=
  "Failed to decrypt data - invalid password or corrupted data"

/-- A `try`/`catch` that rethrows a fixed message: any inner error is replaced
by `msg`. -/
def collapseError {α : Type} (msg : String) : Except String α → Except String α
  | Except.error _ => Except.error msg
  | Except.ok a => Except.ok a

theorem collapseError_eq_error {α : Type} (msg : String) (r : Except String α)
    (e : String) (h : collapseError msg r = Except.error e) : e = msg := by
  cases r with
  | error e' => simp only [collapseError, Except.error.injEq] at h; exact h.symm
  | ok a => exact absurd h (by simp [collapseError])

theorem collapseError_of_ok {α : Type} (msg : String) {r : Except String α}
    {a : α} (h : r = Except.ok a) : collapseError msg r = Except.ok a := by
  rw [h]; rfl

theorem collapseError_of_error {α : Type} (msg : String) {r : Except String α}
    {e : String} (h : r = Except.error e) :
    collapseError msg r = Except.error msg := by
  rw [h]; rfl

/-- The body of `encryptData`'s `try` block. -/
def encryptInner (kdf : List Nat → List Nat → Nat → Nat → List Nat)
    (plaintext : List Nat) (password : String) (salt iv : List Nat)
    (cache : KeyCache) (now : Nat) : Except String (EncryptedPayload × KeyCache) :=
  match deriveKeyWith kdf password defaultIterations salt 256 cache now with
  | Except.error e => Except.error e
  | Except.ok (secureKey, cache') =>
    match cipherEncrypt "AES-GCM" secureKey.key iv plaintext with
    | none => Except.error "encryption failed"
    | some encryptedBuffer =>
      Except.ok
        ({ data := arrayBufferToBase64 encryptedBuffer
           iv := arrayBufferToBase64 iv
           salt := arrayBufferToBase64 salt
           iterations := secureKey.iterations
           algorithm := "AES-GCM"
           keyLength := 256
           version := ENCRYPTION_VERSION
           checksum := calculateChecksum encryptedBuffer salt iv }, cache')

/-- `encryptData(plaintext, password)` with default options
(`AES-GCM`, 256-bit key, 12-byte IV), parameterised by the PBKDF2 primitive.
The fresh random `salt` and `iv` are explicit arguments; the `try`/`catch`
wraps any inner failure as `'Failed to encrypt data'`. -/
def encryptDataWith (kdf : List Nat → List Nat → Nat → Nat → List Nat)
    (plaintext : List Nat) (password : String) (salt iv : List Nat)
    (cache : KeyCache) (now : Nat) : Except String (EncryptedPayload × KeyCache) :=
  -- validatePlaintext: a `string` argument always passes
  match validatePassword password with
  | Except.error e => Except.error e
  | Except.ok () =>
    collapseError "Failed to encrypt data"
      (encryptInner kdf plaintext password salt iv cache now)

/-- `encryptData` with the modelled PBKDF2 primitive. -/
def encryptData (plaintext : List Nat) (password : String) (salt iv : List Nat)
    (cache : KeyCache) (now : Nat) : Except String (EncryptedPayload × KeyCache) :=
  encryptDataWith pbkdf2Model plaintext password salt iv cache now

/-- The body of `decryptData`'s `try` block: decode the base64 fields, verify
the checksum, re-derive the key from the payload's embedded parameters, then
perform keyed decryption. -/
def decryptInner (kdf : List Nat → List Nat → Nat → Nat → List Nat)
    (dec : String → List Nat → List Nat → List Nat → Option (List Nat))
    (payload : EncryptedPayload) (password : String)
    (cache : KeyCache) (now : Nat) : Except String (List Nat × KeyCache) :=
  match base64ToArrayBuffer payload.data, base64ToArrayBuffer payload.iv,
      base64ToArrayBuffer payload.salt with
  | some encryptedData, some iv, some salt =>
    if calculateChecksum encryptedData salt iv ≠ payload.checksum then
      Except.error "Data integrity check failed"
    else
      match deriveKeyWith kdf password payload.iterations salt payload.keyLength
          cache now with
      | Except.error e => Except.error e
      | Except.ok (secureKey, cache') =>
        match dec payload.algorithm secureKey.key iv encryptedData with
        | some decryptedBuffer => Except.ok (decryptedBuffer, cache')
        | none => Except.error "decryption failed"
  | _, _, _ => Except.error "invalid base64"

/-- `decryptData(encryptedPayload, password)`, parameterised by the PBKDF2
primitive and by the keyed decryption primitive `dec` (given the payload's
algorithm name).  `validateEncryptedPayload` always succeeds on the typed
payload (every required field is present); the `try` block collapses every
inner failure to the single generic error. -/
def decryptDataWith (kdf : List Nat → List Nat → Nat → Nat → List Nat)
    (dec : String → List Nat → List Nat → List Nat → Option (List Nat))
    (payload : EncryptedPayload) (password : String)
    (cache : KeyCache) (now : Nat) : Except String (List Nat × KeyCache) :=
  -- validateEncryptedPayload: all required fields exist on the typed payload
  match validatePassword password with
  | Except.error e => Except.error e
  | Except.ok () =>
    collapseError genericDecryptError
      (decryptInner kdf dec payload password cache now)

/-- `decryptData` with the modelled primitives. -/
def decryptData (payload : EncryptedPayload) (password : String)
    (cache : KeyCache) (now : Nat) : Except String (List Nat × KeyCache) :=
  decryptDataWith pbkdf2Model cipherDecrypt payload password cache now

/-- `encryptDataWithKey(plaintext, cryptoKey)`: direct keyed encryption for the
secure-auth system.  The fresh random `iv` and the cosmetic random `salt`
(generated but unused for key derivation) are explicit arguments; the payload
records `iterations = 0`. -/
def encryptDataWithKey (plaintext : List Nat) (cryptoKey : List Nat)
    (iv salt : List Nat) : EncryptedPayload :=
  let encryptedBuffer := gcmEncrypt cryptoKey iv plaintext
  { data := arrayBufferToBase64 encryptedBuffer
    iv := arrayBufferToBase64 iv
    salt := arrayBufferToBase64 salt
    iterations := 0
    algorithm := "AES-GCM"
    keyLength := 256
    version := ENCRYPTION_VERSION
    checksum := calculateChecksum encryptedBuffer salt iv }

/-- The body of `decryptDataWithKey`'s `try` block. -/
def decryptWithKeyInner (payload : EncryptedPayload) (cryptoKey : List Nat) :
    Except String (List Nat) :=
  match base64ToArrayBuffer payload.data, base64ToArrayBuffer payload.iv,
      base64ToArrayBuffer payload.salt with
  | some encryptedData, some iv, some salt =>
    if calculateChecksum encryptedData salt iv ≠ payload.checksum then
      Except.error "Data integrity check failed"
    else
      match gcmDecrypt cryptoKey iv encryptedData with
      | some decryptedBuffer => Except.ok decryptedBuffer
      | none => Except.error "decryption failed"
  | _, _, _ => Except.error "invalid base64"

/-- `decryptDataWithKey(payload, cryptoKey)`: checksum verification followed by
keyed AES-GCM decryption; every inner failure is collapsed to the keyed
generic error. -/
def decryptDataWithKey (payload : EncryptedPayload) (cryptoKey : List Nat) :
    Except String (List Nat) :=
  collapseError "Failed to decrypt data with provided key"
    (decryptWithKeyInner payload cryptoKey)

/-! ## Cache lemmas -/

theorem find?_map_set (k : String) (v : SecureKey) :
    ∀ m : KeyCache, m.any (fun e => e.1 == k) = true →
      List.find? (fun e => e.1 == k)
        (m.map (fun e => if e.1 == k then (k, v) else e)) = some (k, v) := by
  intro m hany
  induction m with
  | nil => simp at hany
  | cons e rest ih =>
      by_cases he : e.1 = k
      · rw [List.map_cons, if_pos (by simp [he])]
        exact List.find?_cons_of_pos _ (by simp)
      · rw [List.map_cons, if_neg (by simp [he]),
          List.find?_cons_of_neg _ (by simp [he])]
        apply ih
        simp only [List.any_cons, Bool.or_eq_true, beq_iff_eq] at hany
        rcases hany with h | h
        · exact absurd h he
        · exact h

theorem find?_append_fresh (k : String) (v : SecureKey) :
    ∀ m : KeyCache, m.any (fun e => e.1 == k) = false →
      List.find? (fun e => e.1 == k) (m ++ [(k, v)]) = some (k, v) := by
  intro m hany
  induction m with
  | nil => exact List.find?_cons_of_pos _ (by simp)
  | cons e rest ih =>
      simp only [List.any_cons, Bool.or_eq_false_iff, beq_eq_false_iff_ne] at hany
      rw [List.cons_append, List.find?_cons_of_neg _ (by simp [hany.1])]
      exact ih (by simp [hany.2])

theorem cacheGet_cacheSet_self (m : KeyCache) (k : String) (v : SecureKey) :
    cacheGet (cacheSet m k v) k = some v := by
  unfold cacheSet cacheGet
  by_cases h : m.any (fun e => e.1 == k) = true
  · rw [if_pos h, find?_map_set k v m h]
    rfl
  · rw [if_neg h, find?_append_fresh k v m (Bool.eq_false_iff.mpr h)]
    rfl

theorem cacheGet_cachePutEntry_self (m : KeyCache) (k : String) (v : SecureKey) :
    cacheGet (cachePutEntry m k v) k = some v :=
  cacheGet_cacheSet_self _ k v

theorem cacheSet_length_le (m : KeyCache) (k : String) (v : SecureKey) :
    (cacheSet m k v).length ≤ m.length + 1 := by
  unfold cacheSet
  split
  · rw [List.length_map]
    omega
  · rw [List.length_append, List.length_cons, List.length_nil]

theorem cacheDelete_head (e : String × SecureKey) (rest : KeyCache) :
    cacheDelete (e :: rest) e.1 = cacheDelete rest e.1 := by
  unfold cacheDelete
  rw [List.filter_cons_of_neg]
  simp

theorem cacheDelete_length_le (m : KeyCache) (k : String) :
    (cacheDelete m k).length ≤ m.length :=
  List.length_filter_le _ m

theorem cachePutEntry_length_le (m : KeyCache) (k : String) (v : SecureKey)
    (h : m.length ≤ 10) : (cachePutEntry m k v).length ≤ 10 := by
  unfold cachePutEntry
  by_cases hfull : 10 ≤ m.length
  · rw [if_pos hfull]
    match m, hfull with
    | e :: rest, _ =>
      simp only [List.head?_cons]
      have hdel : (cacheDelete (e :: rest) e.1).length ≤ rest.length := by
        rw [cacheDelete_head]
        exact cacheDelete_length_le rest e.1
      have hlen : (e :: rest).length = rest.length + 1 := List.length_cons e rest
      calc (cacheSet (cacheDelete (e :: rest) e.1) k v).length
          ≤ (cacheDelete (e :: rest) e.1).length + 1 := cacheSet_length_le _ k v
        _ ≤ rest.length + 1 := by omega
        _ ≤ 10 := by omega
  · rw [if_neg hfull]
    calc (cacheSet m k v).length ≤ m.length + 1 := cacheSet_length_le m k v
      _ ≤ 10 := by omega

/-- When a full cache's key set has no duplicates, inserting drops exactly the
oldest-inserted entry. -/
theorem cachePutEntry_evicts_oldest (e : String × SecureKey) (rest : KeyCache)
    (k : String) (v : SecureKey) (hnd : ((e :: rest).map Prod.fst).Nodup)
    (hfull : 10 ≤ (e :: rest).length) :
    cachePutEntry (e :: rest) k v = cacheSet rest k v := by
  unfold cachePutEntry
  rw [if_pos hfull]
  simp only [List.head?_cons]
  have hdel : cacheDelete (e :: rest) e.1 = rest := by
    rw [cacheDelete_head]
    unfold cacheDelete
    rw [List.filter_eq_self]
    intro a ha
    simp only [List.map_cons, List.nodup_cons, List.mem_map] at hnd
    have hne : a.1 ≠ e.1 := fun hc => hnd.1 ⟨a, ha, hc⟩
    simp [hne]
  rw [hdel]

/-! ## Key derivation lemmas -/

theorem validatePassword_ok {password : String} (h : password ≠ "") :
    validatePassword password = Except.ok () := by
  simp [validatePassword, h]

theorem validateIterations_ok {iterations : Nat} (hlo : 10000 ≤ iterations)
    (hhi : iterations ≤ 10000000) : validateIterations iterations = Except.ok () := by
  unfold validateIterations
  rw [if_neg (by omega), if_neg (by omega)]

theorem deriveKeyWith_hit (kdf : List Nat → List Nat → Nat → Nat → List Nat)
    (password : String) (iterations : Nat) (salt : List Nat) (keyLength : Nat)
    (cache : KeyCache) (now : Nat) (cached : SecureKey)
    (hpw : password ≠ "") (hlo : 10000 ≤ iterations) (hhi : iterations ≤ 10000000)
    (hget : cacheGet cache (createCacheKey password salt iterations) = some cached)
    (hfresh : now - cached.timestamp < 300000) :
    deriveKeyWith kdf password iterations salt keyLength cache now =
      Except.ok (cached, cache) := by
  simp only [deriveKeyWith, validatePassword_ok hpw,
    validateIterations_ok hlo hhi, hget, if_pos hfresh]

/-- Inputs that pass validation always derive a key. -/
theorem deriveKeyWith_ok (kdf : List Nat → List Nat → Nat → Nat → List Nat)
    (password : String) (iterations : Nat) (salt : List Nat) (keyLength : Nat)
    (cache : KeyCache) (now : Nat)
    (hpw : password ≠ "") (hlo : 10000 ≤ iterations) (hhi : iterations ≤ 10000000) :
    ∃ sk cache', deriveKeyWith kdf password iterations salt keyLength cache now =
      Except.ok (sk, cache') := by
  simp only [deriveKeyWith, validatePassword_ok hpw, validateIterations_ok hlo hhi]
  split
  · split
    · exact ⟨_, _, rfl⟩
    · exact ⟨_, _, rfl⟩
  · exact ⟨_, _, rfl⟩

/-- After a successful derivation, the resulting cache maps the lookup key to
the returned `SecureKey`, that key is fresh at `now`, and the key either
records the requested iteration count (fresh derivation) or was already cached
under the same lookup key. -/
theorem deriveKeyWith_ok_state (kdf : List Nat → List Nat → Nat → Nat → List Nat)
    (password : String) (iterations : Nat) (salt : List Nat) (keyLength : Nat)
    (cache : KeyCache) (now : Nat) (sk : SecureKey) (cache' : KeyCache)
    (h : deriveKeyWith kdf password iterations salt keyLength cache now =
      Except.ok (sk, cache')) :
    cacheGet cache' (createCacheKey password salt iterations) = some sk ∧
      now - sk.timestamp < 300000 ∧
      (sk.iterations = iterations ∨
        cacheGet cache (createCacheKey password salt iterations) = some sk) := by
  unfold deriveKeyWith at h
  split at h
  · exact absurd h (by simp)
  · split at h
    · exact absurd h (by simp)
    · split at h
      · rename_i cached hget
        split at h
        · rename_i hfresh
          simp only [Except.ok.injEq, Prod.mk.injEq] at h
          obtain ⟨rfl, rfl⟩ := h
          exact ⟨hget, hfresh, Or.inr hget⟩
        · simp only [Except.ok.injEq, Prod.mk.injEq] at h
          obtain ⟨rfl, rfl⟩ := h
          exact ⟨cacheGet_cachePutEntry_self _ _ _, by simp [freshSecureKey],
            Or.inl (by simp [freshSecureKey])⟩
      · simp only [Except.ok.injEq, Prod.mk.injEq] at h
        obtain ⟨rfl, rfl⟩ := h
        exact ⟨cacheGet_cachePutEntry_self _ _ _, by simp [freshSecureKey],
          Or.inl (by simp [freshSecureKey])⟩

/-! ## Encryption/decryption lemmas -/

theorem base64_roundtrip (bs : List Nat) (h : ∀ b ∈ bs, b < 256) :
    base64ToArrayBuffer (arrayBufferToBase64 bs) = some bs :=
  b64_roundtrip bs h

/-- The payload produced by a successful `encryptData` call, in terms of the
derived `SecureKey`. -/
theorem encryptDataWith_eq (kdf : List Nat → List Nat → Nat → Nat → List Nat)
    (plaintext : List Nat) (password : String) (salt iv : List Nat)
    (cache : KeyCache) (now : Nat) (sk : SecureKey) (cache' : KeyCache)
    (hpw : password ≠ "")
    (hderive : deriveKeyWith kdf password defaultIterations salt 256 cache now =
      Except.ok (sk, cache')) :
    encryptDataWith kdf plaintext password salt iv cache now =
      Except.ok
        ({ data := arrayBufferToBase64 (gcmEncrypt sk.key iv plaintext)
           iv := arrayBufferToBase64 iv
           salt := arrayBufferToBase64 salt
           iterations := sk.iterations
           algorithm := "AES-GCM"
           keyLength := 256
           version := ENCRYPTION_VERSION
           checksum := calculateChecksum (gcmEncrypt sk.key iv plaintext) salt iv },
          cache') := by
  unfold encryptDataWith
  rw [validatePassword_ok hpw]
  apply collapseError_of_ok
  unfold encryptInner
  rw [hderive]
  simp [cipherEncrypt]

/-- C1: For every plaintext byte sequence `P` (the `TextEncoder` image of any
string, including the empty one) and every non-empty password `W`,
`decryptData (encryptData P W) W` returns `P`.  The per-call random salt and
IV, the shared key-cache state, and `Date.now()` are explicit; the
`hcache` hypothesis states the cache invariant the program maintains (an entry
cached under a lookup key records the iteration count that key was formed
from), which holds in particular for the empty cache. -/
theorem decryptData_encryptData_roundtrip
    (P : List Nat) (W : String) (salt iv : List Nat) (cache : KeyCache) (now : Nat)
    (hW : W ≠ "") (hP : ∀ b ∈ P, b < 256) (hsalt : ∀ b ∈ salt, b < 256)
    (hiv : ∀ b ∈ iv, b < 256)
    (hcache : ∀ sk, cacheGet cache (createCacheKey W salt defaultIterations) =
      some sk → sk.iterations = defaultIterations) :
    ∃ payload cache₁ cache₂,
      encryptData P W salt iv cache now = Except.ok (payload, cache₁) ∧
      decryptData payload W cache₁ now = Except.ok (P, cache₂) := by
  obtain ⟨sk, cache₁, hderive⟩ :=
    deriveKeyWith_ok pbkdf2Model W defaultIterations salt 256 cache now hW
      (by norm_num [defaultIterations]) (by norm_num [defaultIterations])
  have henc := encryptDataWith_eq pbkdf2Model P W salt iv cache now sk cache₁ hW hderive
  obtain ⟨hget₁, hfresh, hiter⟩ :=
    deriveKeyWith_ok_state pbkdf2Model W defaultIterations salt 256 cache now sk
      cache₁ hderive
  have hskiter : sk.iterations = defaultIterations := by
    rcases hiter with h | h
    · exact h
    · exact hcache sk h
  refine ⟨_, cache₁, cache₁, henc, ?_⟩
  unfold decryptData decryptDataWith
  rw [validatePassword_ok hW]
  apply collapseError_of_ok
  unfold decryptInner
  simp only [base64_roundtrip _ (gcmEncrypt_lt sk.key iv P), base64_roundtrip _ hiv,
    base64_roundtrip _ hsalt, ne_eq, not_true_eq_false, if_false, hskiter]
  rw [deriveKeyWith_hit pbkdf2Model W defaultIterations salt 256 cache₁ now sk hW
    (by norm_num [defaultIterations]) (by norm_num [defaultIterations]) hget₁ hfresh]
  simp [cipherDecrypt, gcmDecrypt_gcmEncrypt sk.key iv P hP]

/-- Witness for C1 at concrete inputs (empty cache, two-byte plaintext). -/
theorem decryptData_encryptData_roundtrip_witness :
    ∃ payload cache₁ cache₂,
      encryptData [72, 105] "pw" [1, 2] [3] [] 0 = Except.ok (payload, cache₁) ∧
      decryptData payload "pw" cache₁ 0 = Except.ok ([72, 105], cache₂) :=
  decryptData_encryptData_roundtrip [72, 105] "pw" [1, 2] [3] [] 0
    (by decide) (by decide) (by decide) (by decide)
    (by intro sk h; simp [cacheGet, List.find?] at h)

/-- C4: After payload/password validation, every `decryptData` failure —
checksum mismatch or authenticated-decryption failure alike — surfaces as the
single generic error string, so the failure causes are indistinguishable to
the caller. -/
theorem decryptData_error_collapsed (payload : EncryptedPayload) (password : String)
    (cache : KeyCache) (now : Nat) (e : String) (hpw : password ≠ "")
    (h : decryptData payload password cache now = Except.error e) :
    e = genericDecryptError := by
  unfold decryptData decryptDataWith at h
  rw [validatePassword_ok hpw] at h
  exact collapseError_eq_error _ _ _ h

/-- Witness for C4: a payload whose checksum cannot match fails with exactly
the generic error. -/
theorem decryptData_error_collapsed_witness :
    ∃ e, decryptData
        { data := "", iv := "", salt := "", iterations := 300000,
          algorithm := "AES-GCM", keyLength := 256, version := "2.0.0",
          checksum := "x" } "a" [] 0 = Except.error e ∧
      e = genericDecryptError := by
  refine ⟨genericDecryptError, ?_, ?_⟩
  · rfl
  · exact decryptData_error_collapsed
      { data := "", iv := "", salt := "", iterations := 300000,
        algorithm := "AES-GCM", keyLength := 256, version := "2.0.0",
        checksum := "x" } "a" [] 0 genericDecryptError (by decide) rfl

theorem deriveKeyWith_too_low (kdf : List Nat → List Nat → Nat → Nat → List Nat)
    (password : String) (iterations : Nat) (salt : List Nat) (keyLength : Nat)
    (cache : KeyCache) (now : Nat) (hpw : password ≠ "") (h : iterations < 10000) :
    deriveKeyWith kdf password iterations salt keyLength cache now =
      Except.error "Iteration count too low for security (minimum 10,000)" := by
  simp only [deriveKeyWith, validatePassword_ok hpw, validateIterations, if_pos h]

theorem deriveKeyWith_too_high (kdf : List Nat → List Nat → Nat → Nat → List Nat)
    (password : String) (iterations : Nat) (salt : List Nat) (keyLength : Nat)
    (cache : KeyCache) (now : Nat) (hpw : password ≠ "") (h : 10000000 < iterations) :
    deriveKeyWith kdf password iterations salt keyLength cache now =
      Except.error "Iteration count too high (maximum 10,000,000)" := by
  unfold deriveKeyWith
  rw [validatePassword_ok hpw]
  have hvi : validateIterations iterations =
      Except.error "Iteration count too high (maximum 10,000,000)" := by
    unfold validateIterations
    rw [if_neg (by omega), if_pos h]
  rw [hvi]

/-- C5: `validateIterations` (and hence `deriveKeyFromPassword`) rejects
iteration counts 9,999 and 10,000,001 — for every KDF primitive, i.e. before
any cryptographic call — and accepts the boundary values 10,000 and
10,000,000. -/
theorem deriveKey_iteration_bounds :
    validateIterations 9999 =
      Except.error "Iteration count too low for security (minimum 10,000)" ∧
    validateIterations 10000001 =
      Except.error "Iteration count too high (maximum 10,000,000)" ∧
    validateIterations 10000 = Except.ok () ∧
    validateIterations 10000000 = Except.ok () ∧
    ∀ (kdf : List Nat → List Nat → Nat → Nat → List Nat) (password : String)
      (salt : List Nat) (keyLength : Nat) (cache : KeyCache) (now : Nat),
      password ≠ "" →
      deriveKeyWith kdf password 9999 salt keyLength cache now =
        Except.error "Iteration count too low for security (minimum 10,000)" ∧
      deriveKeyWith kdf password 10000001 salt keyLength cache now =
        Except.error "Iteration count too high (maximum 10,000,000)" ∧
      (∃ r, deriveKeyWith kdf password 10000 salt keyLength cache now =
        Except.ok r) ∧
      (∃ r, deriveKeyWith kdf password 10000000 salt keyLength cache now =
        Except.ok r) := by
  refine ⟨rfl, rfl, rfl, rfl, ?_⟩
  intro kdf password salt keyLength cache now hpw
  refine ⟨deriveKeyWith_too_low kdf password 9999 salt keyLength cache now hpw
      (by norm_num),
    deriveKeyWith_too_high kdf password 10000001 salt keyLength cache now hpw
      (by norm_num), ?_, ?_⟩
  · obtain ⟨sk, cache', h⟩ := deriveKeyWith_ok kdf password 10000 salt keyLength
      cache now hpw (by norm_num) (by norm_num)
    exact ⟨(sk, cache'), h⟩
  · obtain ⟨sk, cache', h⟩ := deriveKeyWith_ok kdf password 10000000 salt keyLength
      cache now hpw (by norm_num) (by norm_num)
    exact ⟨(sk, cache'), h⟩

/-- Witness for C5 at the modelled PBKDF2 primitive and concrete inputs. -/
theorem deriveKey_iteration_bounds_witness :
    deriveKeyWith pbkdf2Model "a" 9999 [] 256 [] 0 =
      Except.error "Iteration count too low for security (minimum 10,000)" ∧
    deriveKeyWith pbkdf2Model "a" 10000001 [] 256 [] 0 =
      Except.error "Iteration count too high (maximum 10,000,000)" ∧
    (∃ r, deriveKeyWith pbkdf2Model "a" 10000 [] 256 [] 0 = Except.ok r) ∧
    (∃ r, deriveKeyWith pbkdf2Model "a" 10000000 [] 256 [] 0 = Except.ok r) :=
  deriveKey_iteration_bounds.2.2.2.2 pbkdf2Model "a" [] 256 [] 0 (by decide)

/-- C6: the KDF key cache.  (1) A lookup whose key — first 8 password
characters, first 8 salt bytes, iteration count, as built by
`createCacheKey` — hits an entry younger than 5 minutes returns that cached
`SecureKey` with the cache unchanged, for every KDF primitive (no
re-derivation).  (2) Inserting through the private `cacheKey` method never
grows the cache beyond 10 entries.  (3) When a full (10-entry, duplicate-free)
cache receives an insert, the oldest-inserted entry is the one evicted. -/
theorem keyCache_behaviour :
    (∀ (kdf : List Nat → List Nat → Nat → Nat → List Nat) (password : String)
       (iterations : Nat) (salt : List Nat) (keyLength : Nat) (cache : KeyCache)
       (now : Nat) (cached : SecureKey),
       password ≠ "" → 10000 ≤ iterations → iterations ≤ 10000000 →
       cacheGet cache (createCacheKey password salt iterations) = some cached →
       now - cached.timestamp < 300000 →
       deriveKeyWith kdf password iterations salt keyLength cache now =
         Except.ok (cached, cache)) ∧
    (∀ (cache : KeyCache) (k : String) (v : SecureKey),
       cache.length ≤ 10 → (cachePutEntry cache k v).length ≤ 10) ∧
    (∀ (e : String × SecureKey) (rest : KeyCache) (k : String) (v : SecureKey),
       ((e :: rest).map Prod.fst).Nodup → 10 ≤ (e :: rest).length →
       cachePutEntry (e :: rest) k v = cacheSet rest k v) :=
  ⟨fun kdf password iterations salt keyLength cache now cached hpw hlo hhi hget
      hfresh =>
      deriveKeyWith_hit kdf password iterations salt keyLength cache now cached
        hpw hlo hhi hget hfresh,
    fun cache k v h => cachePutEntry_length_le cache k v h,
    fun e rest k v hnd hfull => cachePutEntry_evicts_oldest e rest k v hnd hfull⟩

/-- Witness for C6: a concrete fresh hit on a one-entry cache; the size bound
on the empty cache; eviction on a concrete full 10-entry cache. -/
theorem keyCache_behaviour_witness :
    deriveKeyWith pbkdf2Model "a" 10000 [] 256
        [("a--10000", ⟨[], [], 10000, "PBKDF2", 256, 0⟩)] 0 =
      Except.ok (⟨[], [], 10000, "PBKDF2", 256, 0⟩,
        [("a--10000", ⟨[], [], 10000, "PBKDF2", 256, 0⟩)]) ∧
    (cachePutEntry [] "k" ⟨[], [], 10000, "PBKDF2", 256, 0⟩).length ≤ 10 ∧
    cachePutEntry
        [("k0", ⟨[], [], 10000, "PBKDF2", 256, 0⟩),
         ("k1", ⟨[], [], 10000, "PBKDF2", 256, 0⟩),
         ("k2", ⟨[], [], 10000, "PBKDF2", 256, 0⟩),
         ("k3", ⟨[], [], 10000, "PBKDF2", 256, 0⟩),
         ("k4", ⟨[], [], 10000, "PBKDF2", 256, 0⟩),
         ("k5", ⟨[], [], 10000, "PBKDF2", 256, 0⟩),
         ("k6", ⟨[], [], 10000, "PBKDF2", 256, 0⟩),
         ("k7", ⟨[], [], 10000, "PBKDF2", 256, 0⟩),
         ("k8", ⟨[], [], 10000, "PBKDF2", 256, 0⟩),
         ("k9", ⟨[], [], 10000, "PBKDF2", 256, 0⟩)] "x"
        ⟨[], [], 10000, "PBKDF2", 256, 0⟩ =
      cacheSet
        [("k1", ⟨[], [], 10000, "PBKDF2", 256, 0⟩),
         ("k2", ⟨[], [], 10000, "PBKDF2", 256, 0⟩),
         ("k3", ⟨[], [], 10000, "PBKDF2", 256, 0⟩),
         ("k4", ⟨[], [], 10000, "PBKDF2", 256, 0⟩),
         ("k5", ⟨[], [], 10000, "PBKDF2", 256, 0⟩),
         ("k6", ⟨[], [], 10000, "PBKDF2", 256, 0⟩),
         ("k7", ⟨[], [], 10000, "PBKDF2", 256, 0⟩),
         ("k8", ⟨[], [], 10000, "PBKDF2", 256, 0⟩),
         ("k9", ⟨[], [], 10000, "PBKDF2", 256, 0⟩)] "x"
        ⟨[], [], 10000, "PBKDF2", 256, 0⟩ :=
  ⟨keyCache_behaviour.1 pbkdf2Model "a" 10000 [] 256
      [("a--10000", ⟨[], [], 10000, "PBKDF2", 256, 0⟩)] 0
      ⟨[], [], 10000, "PBKDF2", 256, 0⟩ (by decide) (by norm_num) (by norm_num)
      (by decide) (by decide),
    keyCache_behaviour.2.1 [] "k" ⟨[], [], 10000, "PBKDF2", 256, 0⟩ (by decide),
    keyCache_behaviour.2.2 ("k0", ⟨[], [], 10000, "PBKDF2", 256, 0⟩)
      [("k1", ⟨[], [], 10000, "PBKDF2", 256, 0⟩),
       ("k2", ⟨[], [], 10000, "PBKDF2", 256, 0⟩),
       ("k3", ⟨[], [], 10000, "PBKDF2", 256, 0⟩),
       ("k4", ⟨[], [], 10000, "PBKDF2", 256, 0⟩),
       ("k5", ⟨[], [], 10000, "PBKDF2", 256, 0⟩),
       ("k6", ⟨[], [], 10000, "PBKDF2", 256, 0⟩),
       ("k7", ⟨[], [], 10000, "PBKDF2", 256, 0⟩),
       ("k8", ⟨[], [], 10000, "PBKDF2", 256, 0⟩),
       ("k9", ⟨[], [], 10000, "PBKDF2", 256, 0⟩)] "x"
      ⟨[], [], 10000, "PBKDF2", 256, 0⟩ (by decide) (by decide)⟩

theorem decryptInner_low_iterations
    (kdf : List Nat → List Nat → Nat → Nat → List Nat)
    (dec : String → List Nat → List Nat → List Nat → Option (List Nat))
    (payload : EncryptedPayload) (password : String) (cache : KeyCache) (now : Nat)
    (hpw : password ≠ "") (hit : payload.iterations < 10000) :
    ∃ e, decryptInner kdf dec payload password cache now = Except.error e := by
  unfold decryptInner
  split
  · split
    · exact ⟨_, rfl⟩
    · rw [deriveKeyWith_too_low kdf password payload.iterations _ payload.keyLength
        cache now hpw hit]
      exact ⟨_, rfl⟩
  all_goals exact ⟨_, rfl⟩

/-- C9: `encryptDataWithKey` stamps `iterations = 0` into its payload, so
password-based `decryptData` on such a payload always fails with the generic
decrypt error (the embedded iteration count fails the lower bound during key
re-derivation, inside the collapsed-error region) for every non-empty
password, while `decryptDataWithKey` with the original raw key recovers the
plaintext. -/
theorem encryptDataWithKey_payload_spec :
    (∀ (plaintext cryptoKey iv salt : List Nat),
      (encryptDataWithKey plaintext cryptoKey iv salt).iterations = 0) ∧
    (∀ (plaintext cryptoKey iv salt : List Nat) (password : String)
       (cache : KeyCache) (now : Nat), password ≠ "" →
       decryptData (encryptDataWithKey plaintext cryptoKey iv salt) password
         cache now = Except.error genericDecryptError) ∧
    (∀ (plaintext cryptoKey iv salt : List Nat),
       (∀ b ∈ plaintext, b < 256) → (∀ b ∈ iv, b < 256) → (∀ b ∈ salt, b < 256) →
       decryptDataWithKey (encryptDataWithKey plaintext cryptoKey iv salt)
         cryptoKey = Except.ok plaintext) := by
  refine ⟨fun _ _ _ _ => rfl, ?_, ?_⟩
  · intro plaintext cryptoKey iv salt password cache now hpw
    unfold decryptData decryptDataWith
    rw [validatePassword_ok hpw]
    obtain ⟨e, he⟩ := decryptInner_low_iterations pbkdf2Model cipherDecrypt
      (encryptDataWithKey plaintext cryptoKey iv salt) password cache now hpw
      (by simp [encryptDataWithKey])
    exact collapseError_of_error _ he
  · intro plaintext cryptoKey iv salt hm hi hs
    unfold decryptDataWithKey
    apply collapseError_of_ok
    unfold decryptWithKeyInner encryptDataWithKey
    simp only [base64_roundtrip _ (gcmEncrypt_lt cryptoKey iv plaintext),
      base64_roundtrip _ hi, base64_roundtrip _ hs, ne_eq, not_true_eq_false,
      if_false, gcmDecrypt_gcmEncrypt cryptoKey iv plaintext hm]

/-- Witness for C9 at concrete inputs. -/
theorem encryptDataWithKey_payload_spec_witness :
    (encryptDataWithKey [5] [7] [3] [1]).iterations = 0 ∧
    decryptData (encryptDataWithKey [5] [7] [3] [1]) "a" [] 0 =
      Except.error genericDecryptError ∧
    decryptDataWithKey (encryptDataWithKey [5] [7] [3] [1]) [7] =
      Except.ok [5] :=
  ⟨encryptDataWithKey_payload_spec.1 [5] [7] [3] [1],
    encryptDataWithKey_payload_spec.2.1 [5] [7] [3] [1] "a" [] 0 (by decide),
    encryptDataWithKey_payload_spec.2.2 [5] [7] [3] [1] (by decide) (by decide)
      (by decide)⟩

/-- C3: (1) Every payload produced by `encryptData` carries as `checksum` the
base64-encoded SHA-256 digest of ciphertext bytes ‖ salt bytes ‖ nonce bytes
(the bytes its own `data`/`salt`/`iv` fields decode to); (2) `decryptData`
recomputes this digest over the received payload fields and compares it before
any decryption: on mismatch it fails for every KDF primitive and every keyed
decryption primitive — no derivation or decryption call can be involved. -/
theorem checksum_spec :
    (∀ (P : List Nat) (W : String) (salt iv : List Nat) (cache : KeyCache)
       (now : Nat) (payload : EncryptedPayload) (cache' : KeyCache),
       (∀ b ∈ salt, b < 256) → (∀ b ∈ iv, b < 256) →
       encryptData P W salt iv cache now = Except.ok (payload, cache') →
       ∃ ct saltB nonceB,
         base64ToArrayBuffer payload.data = some ct ∧
         base64ToArrayBuffer payload.salt = some saltB ∧
         base64ToArrayBuffer payload.iv = some nonceB ∧
         payload.checksum =
           arrayBufferToBase64 (sha256Model (ct ++ saltB ++ nonceB))) ∧
    (∀ (kdf : List Nat → List Nat → Nat → Nat → List Nat)
       (dec : String → List Nat → List Nat → List Nat → Option (List Nat))
       (payload : EncryptedPayload) (password : String) (cache : KeyCache)
       (now : Nat) (encryptedData nonceB saltB : List Nat),
       password ≠ "" →
       base64ToArrayBuffer payload.data = some encryptedData →
       base64ToArrayBuffer payload.iv = some nonceB →
       base64ToArrayBuffer payload.salt = some saltB →
       calculateChecksum encryptedData saltB nonceB ≠ payload.checksum →
       decryptDataWith kdf dec payload password cache now =
         Except.error genericDecryptError) := by
  constructor
  · intro P W salt iv cache now payload cache' hsalt hiv h
    have hW : W ≠ "" := by
      intro hW
      rw [hW, encryptData, encryptDataWith] at h
      exact absurd h (by simp [validatePassword])
    obtain ⟨sk, cache₁, hderive⟩ :=
      deriveKeyWith_ok pbkdf2Model W defaultIterations salt 256 cache now hW
        (by norm_num [defaultIterations]) (by norm_num [defaultIterations])
    have henc := encryptDataWith_eq pbkdf2Model P W salt iv cache now sk cache₁
      hW hderive
    rw [encryptData] at h
    rw [h] at henc
    simp only [Except.ok.injEq, Prod.mk.injEq] at henc
    obtain ⟨rfl, rfl⟩ := henc.symm
    refine ⟨gcmEncrypt sk.key iv P, salt, iv, ?_, ?_, ?_, rfl⟩
    · exact base64_roundtrip _ (gcmEncrypt_lt sk.key iv P)
    · exact base64_roundtrip _ hsalt
    · exact base64_roundtrip _ hiv
  · intro kdf dec payload password cache now encryptedData nonceB saltB hpw hd hi
      hs hneq
    unfold decryptDataWith
    rw [validatePassword_ok hpw]
    apply collapseError_of_error
    unfold decryptInner
    simp only [hd, hi, hs]
    rw [if_pos hneq]

/-- Witness for C3: a concrete encryption's checksum decomposes as specified,
and a concrete mismatching payload is rejected with the generic error. -/
theorem checksum_spec_witness :
    (∃ payload cache' ct saltB nonceB,
      encryptData [5] "a" [1] [2] [] 0 = Except.ok (payload, cache') ∧
      base64ToArrayBuffer payload.data = some ct ∧
      base64ToArrayBuffer payload.salt = some saltB ∧
      base64ToArrayBuffer payload.iv = some nonceB ∧
      payload.checksum =
        arrayBufferToBase64 (sha256Model (ct ++ saltB ++ nonceB))) ∧
    decryptDataWith pbkdf2Model cipherDecrypt
        { data := "", iv := "", salt := "", iterations := 300000,
          algorithm := "AES-GCM", keyLength := 256, version := "2.0.0",
          checksum := "x" } "a" [] 0 = Except.error genericDecryptError := by
  constructor
  · obtain ⟨payload, cache', h⟩ :
        ∃ p c, encryptData [5] "a" [1] [2] [] 0 = Except.ok (p, c) :=
      ⟨_, _, rfl⟩
    obtain ⟨ct, saltB, nonceB, h1, h2, h3, h4⟩ :=
      checksum_spec.1 [5] "a" [1] [2] [] 0 payload cache' (by decide) (by decide) h
    exact ⟨payload, cache', ct, saltB, nonceB, h, h1, h2, h3, h4⟩
  · exact checksum_spec.2 pbkdf2Model cipherDecrypt
      { data := "", iv := "", salt := "", iterations := 300000,
        algorithm := "AES-GCM", keyLength := 256, version := "2.0.0",
        checksum := "x" } "a" [] 0 [] [] [] (by decide) rfl rfl rfl (by decide)

/-! ## Secure authentication (`secure-auth.ts`)

`deriveKeys` derives the server-facing auth key (PBKDF2, 100,000 iterations,
hex-encoded `deriveBits` output) and the local-only encryption key (PBKDF2
over `masterPassword ++ '::encryption'`, 210,000 iterations).  `Buffer.from(s,
'base64')` is lenient, modelled by decoding with `[]` as fallback; the device
fingerprint, user agent, and `Date.now()` are environment inputs passed
explicitly. -/

/-- A lowercase hexadecimal digit (`0`–`9` then `a`–`f`, as produced by
`Number.prototype.toString(16)`). -/
def hexDigit (n : Nat) : Char :=
  if n < 10 then Char.ofNat (48 + n) else Char.ofNat (87 + n)

/-- `b.toString(16).padStart(2, '0')` for a byte. -/
def hexByte (b : Nat) : String := String.mk [hexDigit (b / 16), hexDigit (b % 16)]

/-- Hex encoding of a byte sequence (`Array.from(bits).map(...).join('')`). -/
def hexEncode (bs : List Nat) : String := String.join (bs.map hexByte)

/-- `DerivedKeys`: the server-auth key and the in-memory encryption key. -/
structure DerivedKeys where
  authKey : String
  encryptionKey : List Nat
deriving DecidableEq, Repr

/-- `SecureAuthData` (the `deviceTrust` object is inlined as its two
fields). -/
structure SecureAuthData where
  userEmail : String
  authHash : String
  authSalt : String
  encryptionSalt : String
  accountCreated : Nat
  lastLogin : Nat
  trustedDevices : List String
  requiresVerification : Bool
deriving DecidableEq, Repr

/-- `DeviceInfo`. -/
structure DeviceInfo where
  fingerprint : String
  isTrusted : Bool
  lastSeen : Nat
  userAgent : String
deriving DecidableEq, Repr

/-- The result of `authenticateUser`: `{success, encryptionKey?,
deviceInfo?}`. -/
structure AuthResult where
  success : Bool
  encryptionKey : Option (List Nat)
  deviceInfo : Option DeviceInfo
deriving DecidableEq, Repr

/-- `deriveKeys(masterPassword, authSalt, encryptionSalt)`. -/
def deriveKeys (masterPassword authSalt encryptionSalt : String) : DerivedKeys :=
  { authKey :=
      hexEncode (pbkdf2Model (textEncode masterPassword)
        ((b64DecodeChunks authSalt.data).getD []) 100000 256)
    encryptionKey :=
      pbkdf2Model (textEncode (masterPassword ++ "::encryption"))
        ((b64DecodeChunks encryptionSalt.data).getD []) 210000 256 }

/-- `registerUser(email, masterPassword)`: the two fresh random 32-byte salts
and the device fingerprint are explicit inputs. -/
def registerUser (email masterPassword : String)
    (authSaltBytes encryptionSaltBytes : List Nat) (fingerprint : String)
    (now : Nat) : SecureAuthData :=
  let authSalt := arrayBufferToBase64 authSaltBytes
  let encryptionSalt := arrayBufferToBase64 encryptionSaltBytes
  let keys := deriveKeys masterPassword authSalt encryptionSalt
  { userEmail := email
    authHash := keys.authKey
    authSalt := authSalt
    encryptionSalt := encryptionSalt
    accountCreated := now
    lastLogin := now
    trustedDevices := [fingerprint]
    requiresVerification := false }

/-- `authenticateUser(email, masterPassword, storedAuthData)`. -/
def authenticateUser (email masterPassword : String)
    (storedAuthData : SecureAuthData) (fingerprint userAgent : String)
    (now : Nat) : AuthResult :=
  let keys := deriveKeys masterPassword storedAuthData.authSalt
    storedAuthData.encryptionSalt
  if keys.authKey ≠ storedAuthData.authHash then
    { success := false, encryptionKey := none, deviceInfo := none }
  else
    { success := true
      encryptionKey := some keys.encryptionKey
      deviceInfo := some
        { fingerprint := fingerprint
          isTrusted := storedAuthData.trustedDevices.contains fingerprint
          lastSeen := now
          userAgent := userAgent } }

/-- C7: Authenticating against a record produced by `registerUser` with the
same password succeeds and returns the re-derived encryption key; in general
`authenticateUser` succeeds exactly when the freshly computed auth key equals
the stored `authHash`, and on failure it returns no encryption key. -/
theorem authenticateUser_spec :
    (∀ (email pw : String) (authSaltBytes encryptionSaltBytes : List Nat)
       (fp : String) (now : Nat) (fp' ua : String) (now' : Nat),
       (authenticateUser email pw
          (registerUser email pw authSaltBytes encryptionSaltBytes fp now)
          fp' ua now').success = true ∧
       (authenticateUser email pw
          (registerUser email pw authSaltBytes encryptionSaltBytes fp now)
          fp' ua now').encryptionKey =
         some ((deriveKeys pw (arrayBufferToBase64 authSaltBytes)
           (arrayBufferToBase64 encryptionSaltBytes)).encryptionKey)) ∧
    (∀ (email pw : String) (stored : SecureAuthData) (fp ua : String) (now : Nat),
       ((authenticateUser email pw stored fp ua now).success = true ↔
         (deriveKeys pw stored.authSalt stored.encryptionSalt).authKey =
           stored.authHash) ∧
       ((authenticateUser email pw stored fp ua now).success = false →
         (authenticateUser email pw stored fp ua now).encryptionKey = none)) := by
  constructor
  · intro email pw authSaltBytes encryptionSaltBytes fp now fp' ua now'
    constructor <;> simp [authenticateUser, registerUser]
  · intro email pw stored fp ua now
    by_cases h : (deriveKeys pw stored.authSalt stored.encryptionSalt).authKey =
        stored.authHash
    · constructor
      · simp [authenticateUser, h]
      · intro hfail
        exact absurd hfail (by simp [authenticateUser, h])
    · constructor
      · simp [authenticateUser, h]
      · intro _
        simp [authenticateUser, h]

/-- Witness for C7: a concrete register/authenticate round trip succeeds with
the derived key, and a wrong password yields no key. -/
theorem authenticateUser_spec_witness :
    (authenticateUser "e" "pw" (registerUser "e" "pw" [1] [2] "fp" 0)
      "fp" "ua" 5).success = true ∧
    (authenticateUser "e" "bad" (registerUser "e" "pw" [1] [2] "fp" 0)
      "fp" "ua" 5).encryptionKey = none :=
  ⟨(authenticateUser_spec.1 "e" "pw" [1] [2] "fp" 0 "fp" "ua" 5).1,
    (authenticateUser_spec.2 "e" "bad" (registerUser "e" "pw" [1] [2] "fp" 0)
      "fp" "ua" 5).2 (by decide)⟩

/-! ## Password strength analyzer (`analyzePasswordStrength`)

The sequential score mutations of the source are expressed as an additive raw
score (each penalty branch only subtracts); the label is computed from the raw
score before clamping, exactly as in the source.  The `entropy` and
`crackTime` fields are floating-point estimates not referenced by any claim
and are omitted from the report. -/

/-- The symbol character class `[!@#$%^&*()_+\-=\[\]{}|;:,.<>?]`. -/
def symbolChars : List Char :=
  ['!','@','#','$','%','^','&','*','(',')','_','+','-','=','[',']','\x7b','\x7d',
   '|',';',':',',','.','<','>','?']

/-- Membership in the symbol class. -/
def isSymbolChar (c : Char) : Bool := symbolChars.contains c

/-- The pattern `(.)\1{2,}`: some character repeated three or more times in a
row. -/
def hasTripleRepeat : List Char → Bool
  | a :: b :: c :: rest => (a == b && b == c) || hasTripleRepeat (b :: c :: rest)
  | _ => false

/-- Whether the first list starts with the second. -/
def startsWithSub : List Char → List Char → Bool
  | _, [] => true
  | [], _ :: _ => false
  | c :: cs, d :: ds => c == d && startsWithSub cs ds

/-- Substring containment (`String.prototype.includes`). -/
def containsSub : List Char → List Char → Bool
  | [], needle => needle.isEmpty
  | c :: rest, needle => startsWithSub (c :: rest) needle || containsSub rest needle

/-- The static denylist. -/
def commonPasswords : List String := ["password", "123456", "qwerty", "admin", "letmein"]

/-- The length contribution: `<8` → 0, `8–11` → 10, `12–15` → 20, `≥16` →
25. -/
def lengthScore (n : Nat) : Int :=
  if n < 8 then 0 else if n < 12 then 10 else if 16 ≤ n then 25 else 20

/-- The number of character classes present
(`[hasLower, hasUpper, hasNumber, hasSymbol].filter(Boolean).length`). -/
def classCount (cs : List Char) : Nat :=
  ([cs.any Char.isLower, cs.any Char.isUpper, cs.any Char.isDigit,
    cs.any isSymbolChar].filter id).length

/-- The case-insensitive test `/123|abc|qwe/i`. -/
def hasCommonSequence (cs : List Char) : Bool :=
  containsSub (cs.map Char.toLower) "123".data ||
  containsSub (cs.map Char.toLower) "abc".data ||
  containsSub (cs.map Char.toLower) "qwe".data

/-- Whether the lowercased password contains a denylisted word. -/
def containsCommonPassword (cs : List Char) : Bool :=
  commonPasswords.any (fun w => containsSub (cs.map Char.toLower) w.data)

/-- The score before clamping: length score, plus 10 per character class,
minus the three penalties (10 for repeats, 15 for common sequences, 25 for
denylisted words). -/
def rawScore (password : String) : Int :=
  lengthScore password.length + (classCount password.data : Int) * 10 -
    (if hasTripleRepeat password.data then 10 else 0) -
    (if hasCommonSequence password.data then 15 else 0) -
    (if containsCommonPassword password.data then 25 else 0)

/-- The six-level strength label. -/
inductive Strength where
  | veryWeak
  | weak
  | fair
  | good
  | strong
  | veryStrong
deriving DecidableEq, Repr

/-- The label thresholds, applied to the raw (pre-clamp) score. -/
def strengthOf (score : Int) : Strength :=
  if score < 20 then Strength.veryWeak
  else if score < 40 then Strength.weak
  else if score < 60 then Strength.fair
  else if score < 80 then Strength.good
  else if score < 90 then Strength.strong
  else Strength.veryStrong

/-- The feedback messages, in emission order. -/
def feedbackOf (password : String) : List String :=
  (if password.length < 8 then ["Password should be at least 8 characters long"]
   else if password.length < 12 then
     ["Consider using a longer password (12+ characters)"]
   else []) ++
  (if classCount password.data < 3 then
     ["Use a mix of uppercase, lowercase, numbers, and symbols"]
   else []) ++
  (if hasTripleRepeat password.data then ["Avoid repeating characters"] else []) ++
  (if hasCommonSequence password.data then ["Avoid common sequences"] else []) ++
  (if containsCommonPassword password.data then
     ["Avoid common passwords or words"]
   else [])

/-- The analyzer's report (score clamped to `[0, 100]`, label, feedback). -/
structure StrengthReport where
  score : Int
  strength : Strength
  feedback : List String
deriving DecidableEq, Repr

/-- `analyzePasswordStrength(password)`. -/
def analyzePasswordStrength (password : String) : StrengthReport :=
  { score := max 0 (min 100 (rawScore password))
    strength := strengthOf (rawScore password)
    feedback := feedbackOf password }

/-- Counterexample for C2: `analyzePasswordStrength("Tr0ub4dor&3Zebra!")` does
not reach a score of 80 (it scores 65), so the claimed conjunction
"score ≥ 80 and label Good or above" fails on its score part. -/
theorem analyze_troubador_counterexample :
    ¬ (80 ≤ (analyzePasswordStrength "Tr0ub4dor&3Zebra!").score ∧
      ((analyzePasswordStrength "Tr0ub4dor&3Zebra!").strength = Strength.good ∨
       (analyzePasswordStrength "Tr0ub4dor&3Zebra!").strength = Strength.strong ∨
       (analyzePasswordStrength "Tr0ub4dor&3Zebra!").strength =
         Strength.veryStrong)) := by
  decide

/-- C2 (amended): `analyzePasswordStrength("Tr0ub4dor&3Zebra!")` — 16+
characters, all four classes, no penalties — returns score 65 (25 for length
plus 40 for the four character classes, the maximum the scorer can produce)
with label Good. -/
theorem analyze_troubador_score :
    (analyzePasswordStrength "Tr0ub4dor&3Zebra!").score = 65 ∧
    (analyzePasswordStrength "Tr0ub4dor&3Zebra!").strength = Strength.good := by
  decide

/-- C10: For every input, the score is at most 65 (length contributes at most
25, character classes at most 40, penalties only subtract), so the labels
Strong and Very Strong are unreachable. -/
theorem analyze_score_bounded (password : String) :
    (analyzePasswordStrength password).score ≤ 65 ∧
    (analyzePasswordStrength password).strength ≠ Strength.strong ∧
    (analyzePasswordStrength password).strength ≠ Strength.veryStrong := by
  have hclass : (classCount password.data : Int) ≤ 4 := by
    have h : classCount password.data ≤ 4 := by
      unfold classCount
      exact le_trans (List.length_filter_le _ _) (by simp)
    exact_mod_cast h
  have hlen : lengthScore password.length ≤ 25 := by
    unfold lengthScore
    split_ifs <;> norm_num
  have hraw : rawScore password ≤ 65 := by
    unfold rawScore
    split_ifs <;> omega
  refine ⟨?_, ?_, ?_⟩
  · show max 0 (min 100 (rawScore password)) ≤ 65
    exact max_le (by norm_num) (le_trans (min_le_right 100 _) hraw)
  · show strengthOf (rawScore password) ≠ Strength.strong
    unfold strengthOf
    split_ifs with h1 h2 h3 h4 h5 <;> simp_all <;> omega
  · show strengthOf (rawScore password) ≠ Strength.veryStrong
    unfold strengthOf
    split_ifs with h1 h2 h3 h4 h5 <;> simp_all <;> omega

/-! ## Envelope codec (`JSON.stringify` in `encryptCredential`,
`JSON.parse` in `decryptCredential`)

`JSON.stringify` on an `EncryptedPayload` object literal emits its keys in
insertion order (`data`, `iv`, `salt`, `iterations`, `algorithm`, `keyLength`,
`version`, `checksum`); string values produced by the engine (base64 text,
`"AES-GCM"`, `"2.0.0"`) contain no character requiring a JSON escape, so they
are emitted verbatim between quotes, and the numeric fields are emitted in
decimal.  `parsePayload` models `JSON.parse` on this serialized form,
recovering each field up to the closing brace. -/

/-- The decimal digits of a natural number, as emitted by `JSON.stringify`. -/
def natToChars (n : Nat) : List Char :=
  if h : n < 10 then [Char.ofNat (48 + n)]
  else natToChars (n / 10) ++ [Char.ofNat (48 + n % 10)]
decreasing_by exact Nat.div_lt_self (by omega) (by norm_num)

/-- The numeric value of a decimal digit character. -/
def digitVal (c : Char) : Nat := c.toNat - 48

/-- Parse a nonempty run of decimal digits. -/
def parseNatChars (s : List Char) : Option (Nat × List Char) :=
  let ds := s.takeWhile Char.isDigit
  if ds.isEmpty then none
  else some (ds.foldl (fun a c => a * 10 + digitVal c) 0, s.dropWhile Char.isDigit)

/-- Parse a string body up to and including its closing quote (the opening
quote has already been consumed by the preceding token). -/
def parseStringLit (s : List Char) : Option (List Char × List Char) :=
  match s.dropWhile (· ≠ '"') with
  | '"' :: rest => some (s.takeWhile (· ≠ '"'), rest)
  | _ => none

/-- Consume an expected literal token. -/
def expectChars : List Char → List Char → Option (List Char)
  | [], s => some s
  | c :: cs, d :: ds => if d = c then expectChars cs ds else none
  | _ :: _, [] => none

/-- `{"data":"`. -/
def jsonTokData : List Char := ['\x7b', '"', 'd', 'a', 't', 'a', '"', ':', '"']

/-- `","iv":"` (following the quote closing the previous string). -/
def jsonTokIv : List Char := [',', '"', 'i', 'v', '"', ':', '"']

/-- `","salt":"`. -/
def jsonTokSalt : List Char := [',', '"', 's', 'a', 'l', 't', '"', ':', '"']

/-- `","iterations":`. -/
def jsonTokIterations : List Char :=
  [',', '"', 'i', 't', 'e', 'r', 'a', 't', 'i', 'o', 'n', 's', '"', ':']

/-- `","algorithm":"`. -/
def jsonTokAlgorithm : List Char :=
  [',', '"', 'a', 'l', 'g', 'o', 'r', 'i', 't', 'h', 'm', '"', ':', '"']

/-- `","keyLength":`. -/
def jsonTokKeyLength : List Char :=
  [',', '"', 'k', 'e', 'y', 'L', 'e', 'n', 'g', 't', 'h', '"', ':']

/-- `","version":"`. -/
def jsonTokVersion : List Char :=
  [',', '"', 'v', 'e', 'r', 's', 'i', 'o', 'n', '"', ':', '"']

/-- `","checksum":"`. -/
def jsonTokChecksum : List Char :=
  [',', '"', 'c', 'h', 'e', 'c', 'k', 's', 'u', 'm', '"', ':', '"']

/-- `JSON.stringify(payload)` as performed by `encryptCredential`. -/
def serializePayload (p : EncryptedPayload) : String :=
  String.mk
    (jsonTokData ++ (p.data.data ++ ('"' :: jsonTokIv ++ (p.iv.data ++
      ('"' :: jsonTokSalt ++ (p.salt.data ++ ('"' :: jsonTokIterations ++
        (natToChars p.iterations ++ (jsonTokAlgorithm ++ (p.algorithm.data ++
          ('"' :: jsonTokKeyLength ++ (natToChars p.keyLength ++
            (jsonTokVersion ++ (p.version.data ++ ('"' :: jsonTokChecksum ++
              (p.checksum.data ++ ['"', '\x7d']))))))))))))))))

/-- `JSON.parse` as performed by `decryptCredential`, on the serialized
envelope form. -/
def parsePayload (s : String) : Option EncryptedPayload :=
  match expectChars jsonTokData s.data with
  | none => none
  | some s1 =>
    match parseStringLit s1 with
    | none => none
    | some (dataF, s2) =>
      match expectChars jsonTokIv s2 with
      | none => none
      | some s3 =>
        match parseStringLit s3 with
        | none => none
        | some (ivF, s4) =>
          match expectChars jsonTokSalt s4 with
          | none => none
          | some s5 =>
            match parseStringLit s5 with
            | none => none
            | some (saltF, s6) =>
              match expectChars jsonTokIterations s6 with
              | none => none
              | some s7 =>
                match parseNatChars s7 with
                | none => none
                | some (iterationsF, s8) =>
                  match expectChars jsonTokAlgorithm s8 with
                  | none => none
                  | some s9 =>
                    match parseStringLit s9 with
                    | none => none
                    | some (algorithmF, s10) =>
                      match expectChars jsonTokKeyLength s10 with
                      | none => none
                      | some s11 =>
                        match parseNatChars s11 with
                        | none => none
                        | some (keyLengthF, s12) =>
                          match expectChars jsonTokVersion s12 with
                          | none => none
                          | some s13 =>
                            match parseStringLit s13 with
                            | none => none
                            | some (versionF, s14) =>
                              match expectChars jsonTokChecksum s14 with
                              | none => none
                              | some s15 =>
                                match parseStringLit s15 with
                                | none => none
                                | some (checksumF, s16) =>
                                  match expectChars ['\x7d'] s16 with
                                  | some [] =>
                                    some
                                      { data := String.mk dataF
                                        iv := String.mk ivF
                                        salt := String.mk saltF
                                        iterations := iterationsF
                                        algorithm := String.mk algorithmF
                                        keyLength := keyLengthF
                                        version := String.mk versionF
                                        checksum := String.mk checksumF }
                                  | _ => none

/-- A string value that `JSON.stringify` emits verbatim (no character needs a
JSON escape). -/
def jsonSafe (s : String) : Prop :=
  '"' ∉ s.data ∧ '\\' ∉ s.data ∧ ∀ c ∈ s.data, 32 ≤ c.toNat

instance (s : String) : Decidable (jsonSafe s) := by
  unfold jsonSafe
  exact inferInstance

/-- A valid envelope: every string field is escape-free (base64 text and the
fixed algorithm/version constants all are). -/
def ValidPayload (p : EncryptedPayload) : Prop :=
  jsonSafe p.data ∧ jsonSafe p.iv ∧ jsonSafe p.salt ∧ jsonSafe p.algorithm ∧
    jsonSafe p.version ∧ jsonSafe p.checksum

instance (p : EncryptedPayload) : Decidable (ValidPayload p) := by
  unfold ValidPayload
  exact inferInstance

/-! ## Codec lemmas -/

theorem expectChars_append : ∀ (xs r : List Char), expectChars xs (xs ++ r) = some r
  | [], _ => rfl
  | c :: cs, r => by
      show (if c = c then expectChars cs (cs ++ r) else none) = some r
      rw [if_pos rfl]
      exact expectChars_append cs r

theorem takeWhile_append_all (p : Char → Bool) (xs ys : List Char)
    (h : ∀ x ∈ xs, p x = true) :
    (xs ++ ys).takeWhile p = xs ++ ys.takeWhile p := by
  induction xs with
  | nil => rfl
  | cons x xs ih =>
      rw [List.cons_append, List.takeWhile_cons, h x (by simp)]
      simp only [if_true, List.cons_append, ih (fun x hx => h x (by simp [hx]))]

theorem dropWhile_append_all (p : Char → Bool) (xs ys : List Char)
    (h : ∀ x ∈ xs, p x = true) :
    (xs ++ ys).dropWhile p = ys.dropWhile p := by
  induction xs with
  | nil => rfl
  | cons x xs ih =>
      rw [List.cons_append, List.dropWhile_cons, h x (by simp)]
      simp only [if_true]
      exact ih (fun x hx => h x (by simp [hx]))

theorem parseStringLit_spec (content : List Char) (h : '"' ∉ content) :
    ∀ rest : List Char,
      parseStringLit (content ++ '"' :: rest) = some (content, rest) := by
  intro rest
  have hall : ∀ x ∈ content, (decide (x ≠ '"')) = true := by
    intro x hx
    simp only [decide_eq_true_eq, ne_eq]
    intro hq
    exact h (hq ▸ hx)
  unfold parseStringLit
  rw [dropWhile_append_all _ content _ hall, takeWhile_append_all _ content _ hall]
  rw [List.dropWhile_cons, List.takeWhile_cons]
  simp

theorem digitVal_ofNat (d : Nat) (h : d < 10) :
    digitVal (Char.ofNat (48 + d)) = d := by
  interval_cases d <;> decide

theorem isDigit_ofNat (d : Nat) (h : d < 10) :
    (Char.ofNat (48 + d)).isDigit = true := by
  interval_cases d <;> decide

theorem natToChars_all_digits : ∀ n : Nat, ∀ c ∈ natToChars n, c.isDigit = true := by
  intro n
  induction n using Nat.strong_induction_on with
  | _ n ih =>
      intro c hc
      unfold natToChars at hc
      split at hc
      · simp only [List.mem_singleton] at hc
        subst hc
        exact isDigit_ofNat n (by omega)
      · rename_i hn
        simp only [List.mem_append, List.mem_singleton] at hc
        rcases hc with hc | hc
        · exact ih (n / 10) (Nat.div_lt_self (by omega) (by norm_num)) c hc
        · subst hc
          exact isDigit_ofNat (n % 10) (Nat.mod_lt _ (by norm_num))

theorem natToChars_ne_nil (n : Nat) : natToChars n ≠ [] := by
  unfold natToChars
  split
  · simp
  · simp

theorem foldl_natToChars : ∀ n : Nat,
    (natToChars n).foldl (fun a c => a * 10 + digitVal c) 0 = n := by
  intro n
  induction n using Nat.strong_induction_on with
  | _ n ih =>
      unfold natToChars
      split
      · rename_i h
        simp only [List.foldl_cons, List.foldl_nil, Nat.zero_mul, Nat.zero_add]
        exact digitVal_ofNat n h
      · rename_i h
        rw [List.foldl_append, ih (n / 10) (Nat.div_lt_self (by omega) (by norm_num))]
        simp only [List.foldl_cons, List.foldl_nil]
        rw [digitVal_ofNat (n % 10) (Nat.mod_lt _ (by norm_num))]
        omega

theorem parseNatChars_spec (n : Nat) (c : Char) (rest : List Char)
    (hc : c.isDigit = false) :
    parseNatChars (natToChars n ++ c :: rest) = some (n, c :: rest) := by
  have htake : (natToChars n ++ c :: rest).takeWhile Char.isDigit = natToChars n := by
    rw [takeWhile_append_all _ _ _ (natToChars_all_digits n), List.takeWhile_cons, hc]
    simp
  have hdrop : (natToChars n ++ c :: rest).dropWhile Char.isDigit = c :: rest := by
    rw [dropWhile_append_all _ _ _ (natToChars_all_digits n), List.dropWhile_cons, hc]
    simp
  unfold parseNatChars
  rw [htake, hdrop, if_neg (by simp [natToChars_ne_nil n]), foldl_natToChars]

/-- `parseNatChars` on a number followed by a token that starts with a
non-digit character. -/
theorem parseNatChars_append_tok (n : Nat) (t : List Char) (c : Char)
    (t' : List Char) (ht : t = c :: t') (hc : c.isDigit = false) :
    ∀ r : List Char,
      parseNatChars (natToChars n ++ (t ++ r)) = some (n, t ++ r) := by
  intro r
  subst ht
  rw [List.cons_append]
  exact parseNatChars_spec n c (t' ++ r) hc

/-- C8: For every valid `EncryptedPayload` (its string fields need no JSON
escaping, as holds for everything `encryptData` produces), parsing the
serialized transportable string back yields the payload unchanged:
`parse(serialize(E)) = E`. -/
theorem parsePayload_serializePayload (p : EncryptedPayload) (h : ValidPayload p) :
    parsePayload (serializePayload p) = some p := by
  obtain ⟨⟨d⟩, ⟨i⟩, ⟨sa⟩, it, ⟨al⟩, kl, ⟨ve⟩, ⟨ch⟩⟩ := p
  obtain ⟨⟨hd, -, -⟩, ⟨hi, -, -⟩, ⟨hs, -, -⟩, ⟨ha, -, -⟩, ⟨hv, -, -⟩, ⟨hc, -, -⟩⟩ := h
  have hend : expectChars ['\x7d'] ['\x7d'] = some [] := rfl
  simp only [jsonSafe] at hd hi hs ha hv hc
  simp only [parsePayload, serializePayload, List.cons_append, expectChars_append,
    parseStringLit_spec d hd, parseStringLit_spec i hi, parseStringLit_spec sa hs,
    parseStringLit_spec al ha, parseStringLit_spec ve hv, parseStringLit_spec ch hc,
    parseNatChars_append_tok it jsonTokAlgorithm ',' _ rfl (by decide),
    parseNatChars_append_tok kl jsonTokVersion ',' _ rfl (by decide), hend]

/-- Witness for C8 at a concrete valid payload. -/
theorem parsePayload_serializePayload_witness :
    parsePayload (serializePayload
      { data := "YQ==", iv := "Yg==", salt := "Yw==", iterations := 300000,
        algorithm := "AES-GCM", keyLength := 256, version := "2.0.0",
        checksum := "ZA==" }) =
      some
        { data := "YQ==", iv := "Yg==", salt := "Yw==", iterations := 300000,
          algorithm := "AES-GCM", keyLength := 256, version := "2.0.0",
          checksum := "ZA==" } :=
  parsePayload_serializePayload _ (by decide)

end Studio
